import Mathlib

set_option maxHeartbeats 1000000

namespace EcoSysX

/-! Shallow embedding of the EcoSysX qt-gui core:
    SnapshotBuffer (src/qt-gui/src/core/SnapshotBuffer.cpp),
    EngineClient (src/qt-gui/src/core/EngineClient.cpp) and
    EngineInterface (src/qt-gui/src/core/EngineInterface.cpp).
    Machine ints are modelled as Int (API arguments) and Nat (fields the
    code keeps non-negative and far below 2^31, so C++ int arithmetic and
    unbounded arithmetic coincide on all reachable states). -/

/-- Model of QJsonValue.  The constructor undef models the
    QJsonValue::Undefined value returned for a missing object key. -/
inductive Json where
  | undef : Json
  | null : Json
  | bool (b : Bool) : Json
  | num (v : ℚ) : Json
  | str (s : String) : Json
  | arr (elems : List Json) : Json
  | obj (fields : List (String × Json)) : Json

/-- QJsonObject lookup on the field list: first binding wins, missing key
    gives Undefined (QJsonObject::operator[] const). -/
def lookupField : List (String × Json) → String → Json
  | [], _ => Json.undef
  | (k, v) :: rest, key => if k = key then v else lookupField rest key

/-- QJsonValue::operator[] via toObject: value of a key inside a JSON
    value; non-objects give Undefined. -/
def Json.objValue : Json → String → Json
  | Json.obj fs, key => lookupField fs key
  | _, _ => Json.undef

/-- QJsonValue::toObject: the field list when the value is an object,
    otherwise the empty object. -/
def Json.toObjFields : Json → List (String × Json)
  | Json.obj fs => fs
  | _ => []

/-- QJsonValue::isObject. -/
def Json.isObject : Json → Bool
  | Json.obj _ => true
  | _ => false

/-- QJsonValue::toBool with default. -/
def Json.toBoolD : Json → Bool → Bool
  | Json.bool b, _ => b
  | _, d => d

/-- QJsonValue::toString with default. -/
def Json.toStringD : Json → String → String
  | Json.str s, _ => s
  | _, d => d

/-- QJsonValue::toInt with default: an int only when the stored number is
    integral. -/
def Json.toIntD : Json → Int → Int
  | Json.num q, d => if q.den = 1 then q.num else d
  | _, d => d

/-- Model of QString::split on the dot character, on the character list:
    QString semantics, so the empty string yields one empty part. -/
def splitDots : List Char → List (List Char)
  | [] => [[]]
  | c :: rest =>
    if c = '.' then [] :: splitDots rest
    else
      match splitDots rest with
      | [] => [[c]]
      | g :: gs => (c :: g) :: gs

/-- QString::split of a path on the dot separator. -/
def splitPath (path : String) : List String :=
  (splitDots path.data).map (fun cs => String.mk cs)

/-- Numeric value of a digit list, most significant first. -/
def digitsToNat (cs : List Char) : ℕ :=
  cs.foldl (fun acc c => acc * 10 + (c.toNat - 48)) 0

/-- Model of QString::toDouble restricted to plain decimal literals
    (optional sign, digits, optional fractional part); none on anything
    else, matching the ok=false out-parameter.  Exponent forms and
    specials are outside what the claims exercise. -/
def strToDouble (s : String) : Option ℚ :=
  let core : List Char → Option ℚ := fun cs =>
    match splitDots cs with
    | [w] =>
      if !w.isEmpty && w.all Char.isDigit then some ((digitsToNat w : ℚ))
      else none
    | [w, f] =>
      if (!w.isEmpty || !f.isEmpty) && w.all Char.isDigit && f.all Char.isDigit then
        some ((digitsToNat w : ℚ) + (digitsToNat f : ℚ) / (10 : ℚ) ^ f.length)
      else none
    | _ => none
  match s.data with
  | '-' :: rest => (core rest).map Neg.neg
  | '+' :: rest => core rest
  | cs => core cs

/-! ## SnapshotBuffer -/

/-- SnapshotBuffer::SnapshotEntry. -/
structure SnapshotEntry where
  step : Int
  data : Json

/-- The default-constructed SnapshotEntry (step -1, empty object). -/
def SnapshotEntry.dflt : SnapshotEntry := ⟨-1, Json.obj []⟩

/-- The SnapshotBuffer state: ring storage, write cursor, logical size,
    capacity and the downsampling interval/counter. -/
structure SnapshotBuffer where
  buffer : List SnapshotEntry
  head : ℕ
  size : ℕ
  maxCapacity : ℕ
  downsampleInterval : ℕ
  downsampleCounter : ℕ

/-- SnapshotBuffer::SnapshotBuffer(int maxCapacity): a capacity below 1 is
    replaced by the default 1000; the storage is capacity default slots. -/
def SnapshotBuffer.create (maxCapacity : Int) : SnapshotBuffer :=
  let cap : ℕ := if maxCapacity < 1 then 1000 else maxCapacity.toNat
  { buffer := List.replicate cap SnapshotEntry.dflt
    head := 0
    size := 0
    maxCapacity := cap
    downsampleInterval := 1
    downsampleCounter := 0 }

/-- SnapshotBuffer::setMaxCapacity: below 1 or equal to the current
    capacity is a no-op; otherwise the newest min(size, capacity) entries
    are copied into a fresh buffer in chronological order. -/
def SnapshotBuffer.setMaxCapacity (s : SnapshotBuffer) (capacity : Int) : SnapshotBuffer :=
  if capacity < 1 then s
  else if capacity = (s.maxCapacity : Int) then s
  else
    let cap := capacity.toNat
    let entriesToCopy := min s.size cap
    let startIdx := if s.size > cap then s.size - cap else 0
    let newBuffer := (List.range cap).map (fun i =>
      if i < entriesToCopy then
        s.buffer.getD ((s.head + s.maxCapacity - s.size + startIdx + i) % s.maxCapacity)
          SnapshotEntry.dflt
      else SnapshotEntry.dflt)
    { buffer := newBuffer
      head := entriesToCopy % cap
      size := entriesToCopy
      maxCapacity := cap
      downsampleInterval := s.downsampleInterval
      downsampleCounter := s.downsampleCounter }

/-- SnapshotBuffer::setDownsampleInterval: below 1 clamps to 1; the
    counter is always reset to 0. -/
def SnapshotBuffer.setDownsampleInterval (s : SnapshotBuffer) (interval : Int) : SnapshotBuffer :=
  let iv : ℕ := if interval < 1 then 1 else interval.toNat
  { s with downsampleInterval := iv, downsampleCounter := 0 }

/-- SnapshotBuffer::shouldStore, returning the decision together with the
    updated downsample counter (the C++ member it mutates). -/
def SnapshotBuffer.shouldStoreStep (s : SnapshotBuffer) : Bool × ℕ :=
  if s.downsampleInterval ≤ 1 then (true, s.downsampleCounter)
  else
    let c := s.downsampleCounter + 1
    if s.downsampleInterval ≤ c then (true, 0) else (false, c)

/-- SnapshotBuffer::addSnapshot: consult shouldStore, then write at the
    cursor, advance it modulo capacity and grow the size up to capacity.
    The snapshotAdded/bufferWrapped signals are output-only and are not
    modelled. -/
def SnapshotBuffer.addSnapshot (s : SnapshotBuffer) (step : Int) (snapshot : Json) : SnapshotBuffer :=
  let store := s.shouldStoreStep
  let s1 := { s with downsampleCounter := store.2 }
  if !store.1 then s1
  else
    { s1 with
      buffer := s1.buffer.set s1.head ⟨step, snapshot⟩
      head := (s1.head + 1) % s1.maxCapacity
      size := if s1.size < s1.maxCapacity then s1.size + 1 else s1.size }

/-- SnapshotBuffer::clear. -/
def SnapshotBuffer.clear (s : SnapshotBuffer) : SnapshotBuffer :=
  { s with
    head := 0
    size := 0
    downsampleCounter := 0
    buffer := s.buffer.map (fun _ => SnapshotEntry.dflt) }

/-- The ring index of the i-th oldest retained entry, as computed in the
    retrieval loops (m_head - m_size + i + m_maxCapacity) % m_maxCapacity,
    written with the capacity added first so Nat subtraction matches the
    C++ int arithmetic on all states with size ≤ head + capacity. -/
def SnapshotBuffer.logicalIndex (s : SnapshotBuffer) (i : ℕ) : ℕ :=
  (s.head + s.maxCapacity - s.size + i) % s.maxCapacity

/-- The retained entries in chronological order (the loop shared by
    getAllSnapshots and getTimeSeriesData). -/
def SnapshotBuffer.getAllEntries (s : SnapshotBuffer) : List SnapshotEntry :=
  (List.range s.size).map (fun i => s.buffer.getD (s.logicalIndex i) SnapshotEntry.dflt)

/-- SnapshotBuffer::getAllSnapshots: all stored payloads, oldest first. -/
def SnapshotBuffer.getAllSnapshots (s : SnapshotBuffer) : List Json :=
  s.getAllEntries.map SnapshotEntry.data

/-- The loop body of SnapshotBuffer::extractValue: walk the path parts,
    requiring an object before each key, then convert the leaf (number as
    is, string through toDouble, anything else 0). -/
def extractGo : Json → List String → ℚ
  | current, part :: rest =>
    match current with
    | Json.obj fs => extractGo (lookupField fs part) rest
    | _ => 0
  | current, [] =>
    match current with
    | Json.num v => v
    | Json.str s =>
      match strToDouble s with
      | some v => v
      | none => 0
    | _ => 0

/-- SnapshotBuffer::extractValue: split the path on dots and walk. -/
def SnapshotBuffer.extractValue (obj : Json) (path : String) : ℚ :=
  extractGo obj (splitPath path)

/-- SnapshotBuffer::getTimeSeriesData: walk the retained entries in
    chronological order, skip entries outside [startStep, endStep], and
    pair each remaining step with the extracted value. -/
def SnapshotBuffer.getTimeSeriesData (s : SnapshotBuffer) (metricPath : String)
    (startStep endStep : Int) : List (Int × ℚ) :=
  s.getAllEntries.filterMap (fun e =>
    if e.step < startStep ∨ e.step > endStep then none
    else some (e.step, SnapshotBuffer.extractValue e.data metricPath))

/-- Fold a write sequence into the buffer through addSnapshot. -/
def SnapshotBuffer.writeAll (s : SnapshotBuffer) (ws : List (Int × Json)) : SnapshotBuffer :=
  ws.foldl (fun t w => t.addSnapshot w.1 w.2) s

/-! ## Ring-buffer invariant and content abstraction -/

/-- Structural invariant maintained by every SnapshotBuffer operation. -/
def SnapshotBuffer.Inv (s : SnapshotBuffer) : Prop :=
  1 ≤ s.maxCapacity ∧ s.buffer.length = s.maxCapacity ∧
    s.head < s.maxCapacity ∧ s.size ≤ s.maxCapacity

instance (s : SnapshotBuffer) : Decidable s.Inv := by
  unfold SnapshotBuffer.Inv
  infer_instance

/-- Abstract effect of one accepted write on the chronological content:
    append, evicting the oldest entry when the buffer is full. -/
def ringPush (cap : ℕ) (l : List SnapshotEntry) (e : SnapshotEntry) : List SnapshotEntry :=
  if l.length < cap then l ++ [e] else l.drop 1 ++ [e]

/-- The chronological content of ring storage with the given cursor and
    size (getAllEntries over explicit components). -/
def contentOf (buf : List SnapshotEntry) (cap head size : ℕ) : List SnapshotEntry :=
  (List.range size).map (fun i => buf.getD ((head + cap - size + i) % cap) SnapshotEntry.dflt)

theorem getAllEntries_eq_contentOf (s : SnapshotBuffer) :
    s.getAllEntries = contentOf s.buffer s.maxCapacity s.head s.size := rfl

theorem contentOf_length (buf : List SnapshotEntry) (cap head size : ℕ) :
    (contentOf buf cap head size).length = size := by
  simp [contentOf]

theorem contentOf_getElem (buf : List SnapshotEntry) (cap head size n : ℕ)
    (h : n < (contentOf buf cap head size).length) :
    (contentOf buf cap head size)[n] =
      buf.getD ((head + cap - size + n) % cap) SnapshotEntry.dflt := by
  simp [contentOf, List.getElem_map, List.getElem_range]

theorem length_getAllEntries (s : SnapshotBuffer) : s.getAllEntries.length = s.size := by
  rw [getAllEntries_eq_contentOf, contentOf_length]

theorem mod_shift_ne (cap head x : ℕ) (hh : head < cap) (hx1 : 1 ≤ x) (hx2 : x < cap) :
    (head + x) % cap ≠ head := by
  rcases Nat.lt_or_ge (head + x) cap with hlt | hge
  · rw [Nat.mod_eq_of_lt hlt]; omega
  · rw [Nat.mod_eq_sub_mod hge, Nat.mod_eq_of_lt (by omega)]; omega

theorem getD_set_ne_entry (l : List SnapshotEntry) (i j : ℕ) (a : SnapshotEntry)
    (h : i ≠ j) :
    (l.set i a).getD j SnapshotEntry.dflt = l.getD j SnapshotEntry.dflt := by
  rw [List.getD_eq_getElem?_getD, List.getElem?_set_ne h, ← List.getD_eq_getElem?_getD]

/-- One stored write, seen through the content abstraction. -/
theorem contentOf_push (buf : List SnapshotEntry) (cap head size : ℕ) (e : SnapshotEntry)
    (hc : 1 ≤ cap) (hlen : buf.length = cap) (hh : head < cap) (hsz : size ≤ cap) :
    contentOf (buf.set head e) cap ((head + 1) % cap)
        (if size < cap then size + 1 else size) =
      ringPush cap (contentOf buf cap head size) e := by
  by_cases hfull : size < cap
  · rw [if_pos hfull, ringPush, if_pos (by rw [contentOf_length]; exact hfull)]
    obtain ⟨d, hd⟩ : ∃ d, cap = size + 1 + d := ⟨cap - size - 1, by omega⟩
    apply List.ext_getElem
    · simp [contentOf_length, contentOf]
    · intro n h1 h2
      rw [contentOf_getElem _ _ _ _ _ h1]
      have hn : n < size + 1 := by rw [contentOf_length] at h1; exact h1
      have hidx : ((head + 1) % cap + cap - (size + 1) + n) % cap =
          (head + (1 + d + n)) % cap := by
        have h3 : (head + 1) % cap + cap - (size + 1) + n = (head + 1) % cap + (d + n) := by
          omega
        rw [h3, Nat.mod_add_mod]
        congr 1
        omega
      rw [hidx]
      rcases Nat.lt_or_ge n size with hlt | hge
      · have hx : (head + (1 + d + n)) % cap ≠ head :=
          mod_shift_ne _ _ _ hh (by omega) (by omega)
        rw [getD_set_ne_entry _ _ _ _ (Ne.symm hx),
          List.getElem_append_left (by rw [contentOf_length]; exact hlt),
          contentOf_getElem _ _ _ _ _ (by rw [contentOf_length]; exact hlt)]
        congr 2
        omega
      · have hne : n = size := by omega
        subst hne
        have hhead : (head + (1 + d + n)) % cap = head := by
          have h4 : 1 + d + n = cap := by omega
          rw [h4, Nat.add_mod_right, Nat.mod_eq_of_lt hh]
        rw [hhead, List.getD_eq_getElem?_getD,
          List.getElem?_set_self (by rw [hlen]; exact hh), Option.getD_some,
          List.getElem_append_right (by rw [contentOf_length])]
        simp [contentOf_length]
  · have hsize : size = cap := by omega
    rw [if_neg hfull, ringPush, if_neg (by rw [contentOf_length]; omega)]
    apply List.ext_getElem
    · simp [contentOf_length, List.length_drop]
      omega
    · intro n h1 h2
      rw [contentOf_getElem _ _ _ _ _ h1]
      have hn : n < cap := by rw [contentOf_length] at h1; omega
      have hidx : ((head + 1) % cap + cap - size + n) % cap = (head + (1 + n)) % cap := by
        have h3 : (head + 1) % cap + cap - size + n = (head + 1) % cap + n := by omega
        rw [h3, Nat.mod_add_mod]
        congr 1
        omega
      rw [hidx]
      rcases Nat.lt_or_ge n (cap - 1) with hlt | hge
      · have hx : (head + (1 + n)) % cap ≠ head :=
          mod_shift_ne _ _ _ hh (by omega) (by omega)
        rw [getD_set_ne_entry _ _ _ _ (Ne.symm hx),
          List.getElem_append_left (by rw [List.length_drop, contentOf_length]; omega)]
        rw [List.getElem_drop, contentOf_getElem _ _ _ _ _
          (by rw [contentOf_length]; omega)]
        congr 2
        omega
      · have hne : n = cap - 1 := by omega
        have hhead : (head + (1 + n)) % cap = head := by
          have h4 : 1 + n = cap := by omega
          rw [h4, Nat.add_mod_right, Nat.mod_eq_of_lt hh]
        rw [hhead, List.getD_eq_getElem?_getD,
          List.getElem?_set_self (by rw [hlen]; exact hh), Option.getD_some,
          List.getElem_append_right (by rw [List.length_drop, contentOf_length]; omega)]
        simp [contentOf_length, hsize]

theorem addSnapshot_eq_of_nods (s : SnapshotBuffer) (hds : s.downsampleInterval ≤ 1)
    (st : Int) (sn : Json) :
    s.addSnapshot st sn =
      { s with
        buffer := s.buffer.set s.head ⟨st, sn⟩
        head := (s.head + 1) % s.maxCapacity
        size := if s.size < s.maxCapacity then s.size + 1 else s.size } := by
  simp [SnapshotBuffer.addSnapshot, SnapshotBuffer.shouldStoreStep, hds]

theorem addSnapshot_content (s : SnapshotBuffer) (hInv : s.Inv)
    (hds : s.downsampleInterval ≤ 1) (st : Int) (sn : Json) :
    (s.addSnapshot st sn).getAllEntries =
      ringPush s.maxCapacity s.getAllEntries ⟨st, sn⟩ := by
  obtain ⟨hc, hlen, hh, hsz⟩ := hInv
  rw [addSnapshot_eq_of_nods s hds st sn, getAllEntries_eq_contentOf,
    getAllEntries_eq_contentOf]
  exact contentOf_push s.buffer s.maxCapacity s.head s.size ⟨st, sn⟩ hc hlen hh hsz

theorem addSnapshot_inv (s : SnapshotBuffer) (hInv : s.Inv)
    (hds : s.downsampleInterval ≤ 1) (st : Int) (sn : Json) :
    (s.addSnapshot st sn).Inv ∧
      (s.addSnapshot st sn).maxCapacity = s.maxCapacity ∧
      (s.addSnapshot st sn).downsampleInterval = s.downsampleInterval := by
  obtain ⟨hc, hlen, hh, hsz⟩ := hInv
  rw [addSnapshot_eq_of_nods s hds st sn]
  refine ⟨⟨hc, by simpa using hlen, Nat.mod_lt _ (by omega), ?_⟩, rfl, rfl⟩
  by_cases hfull : s.size < s.maxCapacity
  · simp only [if_pos hfull]; omega
  · simp only [if_neg hfull]; omega

theorem ringPush_length_le (cap : ℕ) (l : List SnapshotEntry) (e : SnapshotEntry)
    (h : l.length ≤ cap) (hc : 1 ≤ cap) : (ringPush cap l e).length ≤ cap := by
  unfold ringPush
  by_cases hfull : l.length < cap
  · simp [hfull]; omega
  · simp [hfull, List.length_drop]; omega

/-- Folding ringPush keeps the most recent cap entries of the total
    write sequence. -/
theorem foldl_ringPush (cap : ℕ) (hc : 1 ≤ cap) :
    ∀ (es l : List SnapshotEntry), l.length ≤ cap →
      es.foldl (ringPush cap) l = (l ++ es).drop ((l ++ es).length - cap)
  | [], l, h => by
    have h0 : l.length - cap = 0 := by omega
    simp [h0]
  | e :: es, l, h => by
    rw [List.foldl_cons,
      foldl_ringPush cap hc es (ringPush cap l e) (ringPush_length_le cap l e h hc)]
    by_cases hfull : l.length < cap
    · have e1 : ringPush cap l e = l ++ [e] := by simp [ringPush, hfull]
      rw [e1]
      have e2 : (l ++ [e]) ++ es = l ++ e :: es := by simp
      rw [e2]
    · have hlcap : l.length = cap := by omega
      cases l with
      | nil => simp at hlcap; omega
      | cons x xs =>
        have e1 : ringPush cap (x :: xs) e = xs ++ [e] := by
          unfold ringPush
          rw [if_neg hfull]
          rfl
        rw [e1]
        have e2 : (xs ++ [e]) ++ es = xs ++ e :: es := by simp
        rw [e2]
        have e3 : (x :: xs) ++ e :: es = x :: (xs ++ e :: es) := by simp
        rw [e3]
        have hx : xs.length = cap - 1 := by simp at hlcap; omega
        have c1 : (xs ++ e :: es).length - cap = es.length := by simp; omega
        have c2 : (x :: (xs ++ e :: es)).length - cap = es.length + 1 := by simp; omega
        rw [c1, c2, List.drop_succ_cons]

/-- The entry a write pair becomes when stored. -/
def toEntry (w : Int × Json) : SnapshotEntry := ⟨w.1, w.2⟩

/-- Simulation of writeAll by an abstract ringPush fold, with the
    invariant, capacity and interval carried along. -/
theorem writeAll_sim :
    ∀ (ws : List (Int × Json)) (s : SnapshotBuffer), s.Inv → s.downsampleInterval ≤ 1 →
      (s.writeAll ws).getAllEntries =
          (ws.map toEntry).foldl (ringPush s.maxCapacity) s.getAllEntries ∧
        (s.writeAll ws).Inv ∧
        (s.writeAll ws).maxCapacity = s.maxCapacity ∧
        (s.writeAll ws).downsampleInterval = s.downsampleInterval
  | [], s, hInv, _ => ⟨rfl, hInv, rfl, rfl⟩
  | w :: ws, s, hInv, hds => by
    have hadd := addSnapshot_inv s hInv hds w.1 w.2
    have hcont := addSnapshot_content s hInv hds w.1 w.2
    have ih := writeAll_sim ws (s.addSnapshot w.1 w.2) hadd.1 (by rw [hadd.2.2]; exact hds)
    have hw : s.writeAll (w :: ws) = (s.addSnapshot w.1 w.2).writeAll ws := rfl
    refine ⟨?_, ?_, ?_, ?_⟩
    · rw [hw, ih.1, hadd.2.1, hcont, List.map_cons, List.foldl_cons]
      rfl
    · rw [hw]; exact ih.2.1
    · rw [hw, ih.2.2.1, hadd.2.1]
    · rw [hw, ih.2.2.2, hadd.2.2]

theorem getAllEntries_of_size_zero (s : SnapshotBuffer) (h : s.size = 0) :
    s.getAllEntries = [] := by
  rw [getAllEntries_eq_contentOf, h]
  simp [contentOf]

/-- The freshly constructed buffer with capacity c ≥ 1. -/
theorem create_spec (c : ℕ) (hc : 1 ≤ c) :
    (SnapshotBuffer.create (c : Int)).maxCapacity = c ∧
      (SnapshotBuffer.create (c : Int)).Inv ∧
      (SnapshotBuffer.create (c : Int)).size = 0 ∧
      (SnapshotBuffer.create (c : Int)).downsampleInterval = 1 ∧
      (SnapshotBuffer.create (c : Int)).getAllEntries = [] := by
  have hlt : ¬ ((c : Int) < 1) := by omega
  have hcap : (SnapshotBuffer.create (c : Int)).maxCapacity = c := by
    simp [SnapshotBuffer.create, hlt]
  refine ⟨hcap, ⟨?_, ?_, ?_, ?_⟩, rfl, rfl, getAllEntries_of_size_zero _ rfl⟩
  · rw [hcap]; exact hc
  · show (List.replicate _ _).length = _
    rw [List.length_replicate, hcap]
    simp [hlt, Int.toNat_natCast]
  · show 0 < _
    simp [SnapshotBuffer.create, hlt]
    omega
  · show 0 ≤ _
    exact Nat.zero_le _

/-! ## Claim C2: ring-buffer FIFO behaviour without downsampling -/

/-- C2: for every capacity c ≥ 1 and k ≥ 0, after c + k accepted writes
    with downsampling disabled, size() is exactly c and the retained
    entries are exactly the most recent c writes in write order (oldest
    first); along the way size never exceeds the capacity, and once the
    buffer is full each further accepted write evicts exactly the oldest
    retained entry. -/
theorem claim_C2_ring_fifo (c k : ℕ) (hc : 1 ≤ c) (ws : List (Int × Json))
    (hlen : ws.length = c + k) :
    ((SnapshotBuffer.create (c : Int)).writeAll ws).size = c ∧
      ((SnapshotBuffer.create (c : Int)).writeAll ws).getAllEntries =
        (ws.drop k).map toEntry ∧
      ((SnapshotBuffer.create (c : Int)).writeAll ws).getAllSnapshots =
        (ws.drop k).map Prod.snd ∧
      (∀ n, ((SnapshotBuffer.create (c : Int)).writeAll (ws.take n)).size ≤ c) ∧
      (∀ (n : ℕ) (st : Int) (sn : Json),
        ((SnapshotBuffer.create (c : Int)).writeAll (ws.take n)).size = c →
        (((SnapshotBuffer.create (c : Int)).writeAll (ws.take n)).addSnapshot st sn).getAllEntries =
          (((SnapshotBuffer.create (c : Int)).writeAll (ws.take n)).getAllEntries).drop 1 ++
            [⟨st, sn⟩]) := by
  obtain ⟨hcap, hInv, hsz0, hds, hnil⟩ := create_spec c hc
  have hds1 : (SnapshotBuffer.create (c : Int)).downsampleInterval ≤ 1 := by rw [hds]
  have hsim := writeAll_sim ws (SnapshotBuffer.create (c : Int)) hInv hds1
  have hfold := foldl_ringPush c hc (ws.map toEntry) [] (by simp)
  have hcontent : ((SnapshotBuffer.create (c : Int)).writeAll ws).getAllEntries =
      (ws.drop k).map toEntry := by
    rw [hsim.1, hcap, hnil, hfold]
    have hL : (([] : List SnapshotEntry) ++ ws.map toEntry).length - c = k := by
      simp [hlen]
    rw [hL]
    simp [List.map_drop]
  refine ⟨?_, hcontent, ?_, ?_, ?_⟩
  · rw [← length_getAllEntries, hcontent, List.length_map, List.length_drop, hlen]
    omega
  · rw [SnapshotBuffer.getAllSnapshots, hcontent, List.map_map]
    rfl
  · intro n
    have hsimn := writeAll_sim (ws.take n) (SnapshotBuffer.create (c : Int)) hInv hds1
    have hle := hsimn.2.1.2.2.2
    rw [hsimn.2.2.1, hcap] at hle
    exact hle
  · intro n st sn hsize
    have hsimn := writeAll_sim (ws.take n) (SnapshotBuffer.create (c : Int)) hInv hds1
    have hdsn : ((SnapshotBuffer.create (c : Int)).writeAll (ws.take n)).downsampleInterval ≤ 1 := by
      rw [hsimn.2.2.2]
      exact hds1
    rw [addSnapshot_content _ hsimn.2.1 hdsn st sn, ringPush, if_neg]
    rw [length_getAllEntries, hsize, hsimn.2.2.1, hcap]
    omega

/-- Concrete instantiation of claim C2 at capacity 2 with 3 writes. -/
theorem claim_C2_ring_fifo_witness :
    (1 ≤ 2 ∧ ([((1 : Int), Json.null), (2, Json.null), (3, Json.null)] :
        List (Int × Json)).length = 2 + 1) ∧
      ((SnapshotBuffer.create (2 : Int)).writeAll
        [((1 : Int), Json.null), (2, Json.null), (3, Json.null)]).size = 2 :=
  ⟨⟨by decide, rfl⟩,
    (claim_C2_ring_fifo 2 1 (by decide)
      [((1 : Int), Json.null), (2, Json.null), (3, Json.null)] rfl).1⟩

/-! ## Claim C1: downsampling keeps every m-th write, dropping the first -/

/-- The write sequence of the repository's own unit test
    testDownsampleInterval2: ten writes at steps 0..9. -/
def downsampleWrites : List (Int × Json) :=
  (List.range 10).map (fun i => ((i : Int), Json.obj [("step", Json.num (i : ℚ))]))

/-- C1 (evaluation at the failing input): with downsample interval 2 the
    code drops the very first write (one write retains 0 entries, not
    ceil(1/2) = 1), and the repository's testDownsampleInterval2 sequence
    retains the writes at steps 1,3,5,7,9 rather than the expected
    0,2,4,6,8 — the counter is incremented before the comparison, so the
    kept writes are the m-th, 2m-th, ... -/
theorem claim_C1_code_divergence :
    (((SnapshotBuffer.create 10).setDownsampleInterval 2).addSnapshot 0
        (Json.obj [])).size = 0 ∧
      ((((SnapshotBuffer.create 10).setDownsampleInterval 2).writeAll
          downsampleWrites).getAllEntries.map SnapshotEntry.step) = [1, 3, 5, 7, 9] := by
  constructor
  · decide
  · decide

/-! ## Claim C10: constructor substitutes 1000 for capacities below 1 -/

/-- C10: constructing a SnapshotBuffer with maxCapacity < 1 silently
    substitutes the default capacity 1000 (not 1, and not an error),
    whereas setMaxCapacity with a value < 1 leaves the buffer entirely
    unchanged. -/
theorem claim_C10_default_capacity (n : Int) (hn : n < 1) :
    (SnapshotBuffer.create n).maxCapacity = 1000 ∧
      (SnapshotBuffer.create n).maxCapacity ≠ 1 ∧
      (∀ s : SnapshotBuffer, s.setMaxCapacity n = s) := by
  have hcap : (SnapshotBuffer.create n).maxCapacity = 1000 := by
    show (if n < 1 then (1000 : ℕ) else n.toNat) = 1000
    rw [if_pos hn]
  refine ⟨hcap, ?_, ?_⟩
  · rw [hcap]
    decide
  · intro s
    simp [SnapshotBuffer.setMaxCapacity, hn]

/-- Concrete instantiation of claim C10 at capacity 0. -/
theorem claim_C10_default_capacity_witness :
    ((0 : Int) < 1) ∧ (SnapshotBuffer.create 0).maxCapacity = 1000 :=
  ⟨by decide, (claim_C10_default_capacity 0 (by decide)).1⟩

/-! ## Claim C5: setMaxCapacity reflow -/

theorem getD_range_map (f : ℕ → SnapshotEntry) (cap i : ℕ) (h : i < cap) :
    ((List.range cap).map f).getD i SnapshotEntry.dflt = f i := by
  rw [List.getD_eq_getElem _ _ (by simpa using h)]
  simp [List.getElem_map, List.getElem_range]

/-- The reflow loop of setMaxCapacity, over explicit components. -/
theorem contentOf_reflow (buf : List SnapshotEntry) (cap head size capN : ℕ)
    (_hc : 1 ≤ cap) (_hlen : buf.length = cap) (_hh : head < cap) (_hsz : size ≤ cap)
    (_hcN : 1 ≤ capN) :
    contentOf
        ((List.range capN).map (fun i =>
          if i < min size capN then
            buf.getD
              ((head + cap - size + (if size > capN then size - capN else 0) + i) % cap)
              SnapshotEntry.dflt
          else SnapshotEntry.dflt))
        capN (min size capN % capN) (min size capN) =
      (contentOf buf cap head size).drop (size - capN) := by
  apply List.ext_getElem
  · simp only [contentOf_length, List.length_drop]
    omega
  · intro i h1i h2i
    rw [contentOf_getElem _ _ _ _ _ h1i]
    have hiE : i < min size capN := by rw [contentOf_length] at h1i; exact h1i
    have hidx : (min size capN % capN + capN - min size capN + i) % capN = i := by
      rcases Nat.lt_or_ge (min size capN) capN with hE | hE
      · rw [Nat.mod_eq_of_lt hE]
        have h3 : min size capN + capN - min size capN + i = capN + i := by omega
        rw [h3, Nat.add_mod_left, Nat.mod_eq_of_lt (by omega)]
      · have hEc : min size capN = capN := by omega
        rw [hEc, Nat.mod_self]
        have h3 : 0 + capN - capN + i = i := by omega
        rw [h3, Nat.mod_eq_of_lt (by omega)]
    rw [hidx, getD_range_map _ _ _ (by omega), if_pos hiE, List.getElem_drop,
      contentOf_getElem _ _ _ _ _ (by rw [contentOf_length]; omega)]
    have hstart : (if size > capN then size - capN else 0) = size - capN := by
      split <;> omega
    rw [hstart]
    congr 2
    omega

theorem setMaxCapacity_grow_shrink (s : SnapshotBuffer) (hInv : s.Inv) (n : Int)
    (hn : 1 ≤ n) :
    (s.setMaxCapacity n).maxCapacity = n.toNat ∧
      (s.setMaxCapacity n).size = min s.size n.toNat ∧
      (s.setMaxCapacity n).getAllEntries = s.getAllEntries.drop (s.size - n.toNat) := by
  obtain ⟨hc, hlen, hh, hsz⟩ := hInv
  have h1 : ¬ n < 1 := by omega
  by_cases h2 : n = (s.maxCapacity : Int)
  · have heq : s.setMaxCapacity n = s := by
      simp [SnapshotBuffer.setMaxCapacity, h1, h2]
    have hnt : n.toNat = s.maxCapacity := by rw [h2, Int.toNat_natCast]
    rw [heq, hnt]
    refine ⟨rfl, by omega, ?_⟩
    have h0 : s.size - s.maxCapacity = 0 := by omega
    rw [h0, List.drop_zero]
  · have hcap1 : 1 ≤ n.toNat := by omega
    refine ⟨?_, ?_, ?_⟩
    · show (if n < 1 then s else _).maxCapacity = n.toNat
      rw [if_neg h1]
      show (if n = (s.maxCapacity : Int) then s else _).maxCapacity = n.toNat
      rw [if_neg h2]
    · show (if n < 1 then s else _).size = min s.size n.toNat
      rw [if_neg h1]
      show (if n = (s.maxCapacity : Int) then s else _).size = min s.size n.toNat
      rw [if_neg h2]
    · show (if n < 1 then s else _).getAllEntries = _
      rw [if_neg h1]
      show (if n = (s.maxCapacity : Int) then s else _).getAllEntries = _
      rw [if_neg h2]
      rw [getAllEntries_eq_contentOf, getAllEntries_eq_contentOf]
      exact contentOf_reflow s.buffer s.maxCapacity s.head s.size n.toNat hc hlen hh hsz
        hcap1

/-- C5: configureCapacity with n < 1 is a no-op; otherwise the capacity
    becomes n and exactly the newest min(size, n) entries survive, in
    chronological order, discarding only the oldest when shrinking. -/
theorem claim_C5_configure_capacity (s : SnapshotBuffer) (hInv : s.Inv) (n : Int) :
    (n < 1 → s.setMaxCapacity n = s) ∧
      (1 ≤ n →
        (s.setMaxCapacity n).maxCapacity = n.toNat ∧
          (s.setMaxCapacity n).size = min s.size n.toNat ∧
          (s.setMaxCapacity n).getAllEntries = s.getAllEntries.drop (s.size - n.toNat)) := by
  constructor
  · intro hn
    simp [SnapshotBuffer.setMaxCapacity, hn]
  · intro hn
    exact setMaxCapacity_grow_shrink s hInv n hn

/-- Concrete instantiation of claim C5: a buffer of capacity 3 holding two
    entries, shrunk to capacity 1, keeps exactly the newest entry. -/
theorem claim_C5_configure_capacity_witness :
    ((SnapshotBuffer.create 3).writeAll [((1 : Int), Json.null), (2, Json.null)]).Inv ∧
      (1 ≤ (1 : Int)) ∧
      (((SnapshotBuffer.create 3).writeAll
          [((1 : Int), Json.null), (2, Json.null)]).setMaxCapacity 1).size =
        min ((SnapshotBuffer.create 3).writeAll
          [((1 : Int), Json.null), (2, Json.null)]).size (1 : Int).toNat :=
  ⟨by decide, by decide,
    ((claim_C5_configure_capacity
        ((SnapshotBuffer.create 3).writeAll [((1 : Int), Json.null), (2, Json.null)])
        (by decide) 1).2 (by decide)).2.1⟩

/-! ## Claims C6 and C9: dot-path time-series extraction -/

/-- The path traversal as the spec words it: descend through objects,
    stopping with Undefined at a non-object or missing key. -/
def pathLookup : Json → List String → Json
  | v, [] => v
  | v, p :: rest =>
    match v with
    | Json.obj fs => pathLookup (lookupField fs p) rest
    | _ => Json.undef

/-- The leaf classification as the claim words it: a number is taken as
    is, a string is coerced through numeric parsing, everything else
    (including a failed traversal) contributes 0. -/
def leafValue : Json → ℚ
  | Json.num q => q
  | Json.str s => (strToDouble s).getD 0
  | _ => 0

/-- C6: getTimeSeriesData keeps, in chronological order, one
    (sequence, value) pair for every stored entry whose sequence lies in
    [fromSeq, toSeq] inclusive, the value taken by extractValue (0.0 for
    misses rather than omitting the entry); and the round trip of writing
    metrics.population = v at sequence s and querying that path over
    [s, s] yields exactly [(s, v)]. -/
theorem claim_C6_time_series (s : SnapshotBuffer) (path : String) (fromSeq toSeq : Int)
    (hle : fromSeq ≤ toSeq) :
    s.getTimeSeriesData path fromSeq toSeq =
      (s.getAllEntries.filter
          (fun e => decide (fromSeq ≤ e.step ∧ e.step ≤ toSeq))).map
        (fun e => (e.step, SnapshotBuffer.extractValue e.data path)) ∧
      (∀ (v : ℚ) (seq : Int),
        ((SnapshotBuffer.create 10).addSnapshot seq
            (Json.obj [("metrics", Json.obj [("population", Json.num v)])])).getTimeSeriesData
          "metrics.population" seq seq = [(seq, v)]) := by
  constructor
  · rw [SnapshotBuffer.getTimeSeriesData]
    induction s.getAllEntries with
    | nil => rfl
    | cons e l ih =>
      rw [List.filterMap_cons, List.filter_cons]
      by_cases hcond : fromSeq ≤ e.step ∧ e.step ≤ toSeq
      · rw [if_neg (by omega)]
        have hdec : decide (fromSeq ≤ e.step ∧ e.step ≤ toSeq) = true := by
          simpa using hcond
        rw [hdec, if_pos rfl, List.map_cons, ih]
      · rw [if_pos (by omega)]
        have hdec : decide (fromSeq ≤ e.step ∧ e.step ≤ toSeq) = false := by
          simpa using hcond
        rw [hdec]
        simp only [Bool.false_eq_true, if_false]
        exact ih
  · intro v seq
    have hcond : ¬ (seq < seq ∨ seq > seq) := by omega
    simp [SnapshotBuffer.getTimeSeriesData, SnapshotBuffer.addSnapshot,
      SnapshotBuffer.shouldStoreStep, SnapshotBuffer.getAllEntries,
      SnapshotBuffer.logicalIndex, SnapshotBuffer.create, SnapshotBuffer.extractValue,
      splitPath, splitDots, extractGo, lookupField, hcond, List.range_succ,
      List.range_zero, List.filterMap_cons, Function.comp]

/-- Concrete instantiation of claim C6 over a two-entry buffer. -/
theorem claim_C6_time_series_witness :
    ((0 : Int) ≤ 10) ∧
      (((SnapshotBuffer.create 5).writeAll
          [((1 : Int), Json.obj [("a", Json.num 7)]), (2, Json.null)]).getTimeSeriesData
        "a" 0 10 =
        ((((SnapshotBuffer.create 5).writeAll
            [((1 : Int), Json.obj [("a", Json.num 7)]), (2, Json.null)]).getAllEntries.filter
            (fun e => decide ((0 : Int) ≤ e.step ∧ e.step ≤ (10 : Int)))).map
          (fun e => (e.step, SnapshotBuffer.extractValue e.data "a")))) :=
  ⟨by decide,
    (claim_C6_time_series
      ((SnapshotBuffer.create 5).writeAll
        [((1 : Int), Json.obj [("a", Json.num 7)]), (2, Json.null)])
      "a" 0 10 (by decide)).1⟩

/-- C9: the value extraction classifies the leaf reached by the path
    traversal: a JSON number is taken as is, a string is parsed as a
    number (silently coerced, e.g. "42" yields 42) with unparsable
    strings giving 0, and booleans, arrays, objects, null and missing
    keys all give 0. -/
theorem claim_C9_leaf_classification :
    (∀ (obj : Json) (path : String),
        SnapshotBuffer.extractValue obj path = leafValue (pathLookup obj (splitPath path))) ∧
      (∀ (v : Json) (parts : List String),
        extractGo v parts = leafValue (pathLookup v parts)) ∧
      leafValue (Json.str "42") = 42 ∧
      leafValue (Json.str "abc") = 0 ∧
      leafValue (Json.bool true) = 0 ∧
      leafValue Json.null = 0 ∧
      leafValue (Json.arr []) = 0 ∧
      leafValue (Json.obj [("k", Json.num 1)]) = 0 ∧
      leafValue Json.undef = 0 := by
  have hgo : ∀ (parts : List String) (v : Json),
      extractGo v parts = leafValue (pathLookup v parts) := by
    intro parts
    induction parts with
    | nil =>
      intro v
      cases v with
      | str s =>
        show (match strToDouble s with | some v => v | none => 0) = _
        cases h : strToDouble s <;> simp [pathLookup, leafValue, h]
      | _ => rfl
    | cons p rest ih =>
      intro v
      cases v with
      | obj fs => exact ih (lookupField fs p)
      | _ => rfl
  refine ⟨fun obj path => hgo (splitPath path) obj, fun v parts => hgo parts v,
    by decide, by decide, rfl, rfl, rfl, rfl, rfl⟩

/-! ## EngineClient (process-transport session) -/

/-- EngineState from EngineClient.h. -/
inductive EngineState where
  | Idle
  | Starting
  | Running
  | Stepping
  | Stopping
  | Stopped
  | Error
  deriving DecidableEq

/-- The EngineClient state.  scriptExists models QFile::exists on the
    sidecar script and processRunning models
    m_process->state() == QProcess::Running; both are environment facts
    the code branches on. -/
structure EngineClient where
  state : EngineState
  currentTick : Int
  lastStepIndex : Int
  plannedSteps : Int
  startupTimerActive : Bool
  initialized : Bool
  initPending : Bool
  commandId : ℕ
  pendingConfig : Json
  nodePath : String
  sidecarScript : String
  scriptExists : Bool
  processRunning : Bool

/-- The Qt signals EngineClient emits. -/
inductive EngineEvent where
  | started
  | stopped
  | stepped (tick : Int)
  | snapshotReceived (snapshot : Json)
  | stateChanged (st : EngineState)
  | errorOccurred (message : String)
  | logMessage (message : String)

/-- Result of one EngineClient operation: the new state, the emitted
    signals in order, and the JSON lines written to the process. -/
structure ClientStep where
  client : EngineClient
  events : List EngineEvent
  sent : List Json

/-- EngineClient::setState: updates the field and emits stateChanged only
    on an actual change. -/
def setState (s : EngineClient) (ns : EngineState) : EngineClient × List EngineEvent :=
  if s.state ≠ ns then ({ s with state := ns }, [EngineEvent.stateChanged ns])
  else (s, [])

/-- EngineClient::sendMessage: fails without sending when the process is
    not running; a successful write is modelled as complete (the
    incomplete-write diagnostic depends on OS pipe state outside the
    model). -/
def sendMessageEvents (s : EngineClient) (message : Json) : List EngineEvent × List Json :=
  if !s.processRunning then
    ([EngineEvent.errorOccurred "Cannot send message: engine process not running"], [])
  else ([], [message])

/-- EngineClient::isRunning. -/
def EngineClient.isRunning (s : EngineClient) : Bool :=
  s.state == EngineState.Running || s.state == EngineState.Stepping

/-- The wire frame sendStep writes. -/
def stepMessage (steps : Int) : Json :=
  Json.obj [("op", Json.str "step"),
    ("data", Json.obj [("steps", Json.num (steps : ℚ))])]

/-- EngineClient::sendStep. -/
def EngineClient.sendStep (s : EngineClient) (steps : Int) : ClientStep :=
  if !s.initialized then
    ⟨s, [EngineEvent.errorOccurred
      "Cannot send step: engine not initialized. Call init first."], []⟩
  else if !s.isRunning then
    ⟨s, [EngineEvent.errorOccurred "Cannot send step: engine not running"], []⟩
  else if steps ≤ 0 then
    ⟨s, [EngineEvent.errorOccurred
      ("Invalid step count: " ++ toString steps ++ " (must be > 0)")], []⟩
  else
    let s1 := { s with commandId := s.commandId + 1 }
    let logEv := EngineEvent.logMessage
      ("[CMD:" ++ toString s1.commandId ++ "] Step command: steps=" ++ toString steps ++
        ", current_tick=" ++ toString s1.currentTick ++ ", planned=" ++
        toString s1.plannedSteps)
    let p := setState s1 EngineState.Stepping
    let q := sendMessageEvents p.1 (stepMessage steps)
    ⟨p.1, logEv :: (p.2 ++ q.1), q.2⟩

/-- EngineClient::start.  The asynchronous process spawn outcome arrives
    later through onProcessStarted/onProcessError and is not part of this
    call; the startup timer is armed. -/
def EngineClient.start (s : EngineClient) : ClientStep :=
  if s.state == EngineState.Running || s.state == EngineState.Stepping then
    ⟨s, [EngineEvent.logMessage "Engine already running"], []⟩
  else if s.state == EngineState.Starting then
    ⟨s, [EngineEvent.logMessage "Engine already starting"], []⟩
  else if s.sidecarScript = "" then
    let p := setState s EngineState.Error
    ⟨p.1, EngineEvent.errorOccurred "Sidecar script path not set" :: p.2, []⟩
  else if !s.scriptExists then
    let p := setState s EngineState.Error
    ⟨p.1, EngineEvent.errorOccurred ("Sidecar script not found: " ++ s.sidecarScript) :: p.2,
      []⟩
  else
    let s1 := { s with
      initialized := false
      initPending := false
      currentTick := 0
      lastStepIndex := -1
      plannedSteps := 0 }
    let p := setState s1 EngineState.Starting
    let s2 := { p.1 with commandId := p.1.commandId + 1, startupTimerActive := true }
    ⟨s2, p.2 ++ [EngineEvent.logMessage
      ("[CMD:" ++ toString s2.commandId ++ "] Starting engine: " ++ s.nodePath ++ " " ++
        s.sidecarScript)], []⟩

/-- EngineClient::handleResponse. -/
def EngineClient.handleResponse (s : EngineClient) (json : Json) : ClientStep :=
  let success := (json.objValue "success").toBoolD false
  let op := (json.objValue "op").toStringD ""
  let data := Json.obj ((json.objValue "data").toObjFields)
  if !success then
    let error := (json.objValue "error").toStringD "Unknown engine error"
    let stack := (json.objValue "stack").toStringD ""
    let evs1 := [EngineEvent.logMessage
      ("[EVT] Engine error (" ++ (if op = "" then "unknown" else op) ++ "): " ++ error)]
    let evs2 := if stack = "" then [] else [EngineEvent.logMessage stack]
    let p := setState s EngineState.Error
    ⟨{ p.1 with initialized := false, initPending := false },
      evs1 ++ evs2 ++ [EngineEvent.errorOccurred error] ++ p.2, []⟩
  else if op = "ping" then
    let tick := (data.objValue "tick").toIntD s.currentTick
    let s1 := { s with currentTick := tick }
    let p := if s1.state == EngineState.Starting then setState s1 EngineState.Running
      else (s1, [])
    ⟨p.1, p.2 ++ [EngineEvent.stepped tick], []⟩
  else if op = "init" then
    let tick := (data.objValue "tick").toIntD 0
    let s1 := { s with
      currentTick := tick
      initialized := true
      initPending := false
      lastStepIndex := -1 }
    let evs1 := [EngineEvent.logMessage
      ("[EVT] Engine initialized: tick=" ++ toString tick ++ ", planned_steps=" ++
        toString s1.plannedSteps)]
    let evs2 := if s1.plannedSteps ≤ 0 then
      [EngineEvent.logMessage "[WARN] Empty run plan: 0 steps scheduled!"] else []
    let p := setState s1 EngineState.Running
    ⟨p.1, evs1 ++ evs2 ++ p.2 ++ [EngineEvent.stepped tick, EngineEvent.started], []⟩
  else if op = "step" then
    let tick := (data.objValue "tick").toIntD s.currentTick
    let s1 := { s with currentTick := tick, lastStepIndex := tick }
    let evs1 := [EngineEvent.logMessage
      ("[EVT] Step complete: tick=" ++ toString tick ++ "/" ++ toString s1.plannedSteps)]
    let p := setState s1 EngineState.Running
    ⟨p.1, evs1 ++ p.2 ++ [EngineEvent.stepped tick], []⟩
  else if op = "snapshot" then
    let snapshot := (data.objValue "snapshot").toObjFields
    if snapshot.isEmpty then ⟨s, [], []⟩
    else ⟨s, [EngineEvent.snapshotReceived (Json.obj snapshot)], []⟩
  else if op = "stop" then
    let p := setState s EngineState.Stopped
    ⟨p.1, p.2 ++ [EngineEvent.logMessage "[EVT] Engine acknowledged stop command"], []⟩
  else
    ⟨s, [EngineEvent.logMessage ("[EVT] Unhandled response op: " ++ op)], []⟩

/-- The error messages among a list of emitted events. -/
def errMsg? : EngineEvent → Option String
  | EngineEvent.errorOccurred m => some m
  | _ => none

/-- A representative initialized, running session. -/
def sampleClient : EngineClient :=
  { state := EngineState.Running
    currentTick := 5
    lastStepIndex := 3
    plannedSteps := 10
    startupTimerActive := false
    initialized := true
    initPending := false
    commandId := 7
    pendingConfig := Json.obj []
    nodePath := "node"
    sidecarScript := "main.js"
    scriptExists := true
    processRunning := true }

/-! ## Claim C4: a failure frame forces the Error state -/

/-- C4: handling any inbound frame whose success field reads false moves
    the session to Error, clears initialized and initPending, sends
    nothing, and emits exactly one error event carrying the frame's error
    string (or the default message when absent), regardless of the prior
    state. -/
theorem claim_C4_failure_frame (s : EngineClient) (j : Json)
    (h : (j.objValue "success").toBoolD false = false) :
    (s.handleResponse j).client.state = EngineState.Error ∧
      (s.handleResponse j).client.initialized = false ∧
      (s.handleResponse j).client.initPending = false ∧
      (s.handleResponse j).events.filterMap errMsg? =
        [(j.objValue "error").toStringD "Unknown engine error"] ∧
      (s.handleResponse j).sent = [] := by
  unfold EngineClient.handleResponse setState
  rw [h]
  simp only [Bool.not_false]
  refine ⟨?_, ?_, ?_, ?_, ?_⟩ <;>
    split_ifs <;>
    simp_all [errMsg?, List.filterMap_append]

/-- Concrete instantiation of claim C4 on a failure frame carrying the
    error string boom. -/
theorem claim_C4_failure_frame_witness :
    ((Json.obj [("success", Json.bool false),
        ("error", Json.str "boom")]).objValue "success").toBoolD false = false ∧
      (sampleClient.handleResponse
        (Json.obj [("success", Json.bool false),
          ("error", Json.str "boom")])).client.state = EngineState.Error ∧
      (sampleClient.handleResponse
        (Json.obj [("success", Json.bool false),
          ("error", Json.str "boom")])).events.filterMap errMsg? = ["boom"] :=
  ⟨rfl,
    (claim_C4_failure_frame sampleClient
      (Json.obj [("success", Json.bool false), ("error", Json.str "boom")]) rfl).1,
    (claim_C4_failure_frame sampleClient
      (Json.obj [("success", Json.bool false), ("error", Json.str "boom")]) rfl).2.2.2.1⟩

/-! ## Claim C3: sendStep preconditions (corrected: Stepping also passes) -/

/-- A session currently executing steps. -/
def steppingClient : EngineClient := { sampleClient with state := EngineState.Stepping }

/-- C3 counterexample: in state Stepping (not Running) with the session
    initialized, sendStep(1) emits no error and does send a step frame,
    contradicting the claim that a step is sent only when the state is
    exactly Running and that every other case errors with no send. -/
theorem claim_C3_counterexample :
    steppingClient.initialized = true ∧
      steppingClient.state ≠ EngineState.Running ∧
      (steppingClient.sendStep 1).sent = [stepMessage 1] ∧
      (steppingClient.sendStep 1).events.filterMap errMsg? = [] ∧
      (steppingClient.sendStep 1).client.state = EngineState.Stepping := by
  refine ⟨rfl, by decide, rfl, by decide, rfl⟩

/-- C3 (amended): sendStep(n) sends a step frame (and the session is in
    Stepping afterwards) exactly when the session is initialized, the
    state is Running or Stepping, n > 0 and the process is alive; when
    not initialized, not running, or n ≤ 0 it emits one descriptive
    error, sends nothing and leaves the whole session state unchanged —
    in particular, before a successful init it always fails and never
    changes currentTick. -/
theorem claim_C3_step_preconditions (s : EngineClient) (n : Int) :
    (s.initialized = false →
      (s.sendStep n).client = s ∧
        (s.sendStep n).events =
          [EngineEvent.errorOccurred
            "Cannot send step: engine not initialized. Call init first."] ∧
        (s.sendStep n).sent = []) ∧
      (s.initialized = true → s.isRunning = false →
        (s.sendStep n).client = s ∧
          (s.sendStep n).events =
            [EngineEvent.errorOccurred "Cannot send step: engine not running"] ∧
          (s.sendStep n).sent = []) ∧
      (s.initialized = true → s.isRunning = true → n ≤ 0 →
        (s.sendStep n).client = s ∧
          (s.sendStep n).events =
            [EngineEvent.errorOccurred
              ("Invalid step count: " ++ toString n ++ " (must be > 0)")] ∧
          (s.sendStep n).sent = []) ∧
      (s.initialized = true → s.isRunning = true → 0 < n → s.processRunning = true →
        (s.sendStep n).client.state = EngineState.Stepping ∧
          (s.sendStep n).sent = [stepMessage n] ∧
          (s.sendStep n).events.filterMap errMsg? = [] ∧
          (s.sendStep n).client.currentTick = s.currentTick ∧
          (s.sendStep n).client.initialized = true) ∧
      (s.isRunning = true ↔
        (s.state = EngineState.Running ∨ s.state = EngineState.Stepping)) := by
  refine ⟨?_, ?_, ?_, ?_, ?_⟩
  · intro h0
    unfold EngineClient.sendStep
    rw [h0]
    exact ⟨rfl, rfl, rfl⟩
  · intro h0 h1
    unfold EngineClient.sendStep
    rw [h0, h1]
    exact ⟨rfl, rfl, rfl⟩
  · intro h0 h1 h2
    unfold EngineClient.sendStep
    rw [h0, h1, if_pos h2]
    exact ⟨rfl, rfl, rfl⟩
  · intro h0 h1 h2 h3
    have hn : ¬ n ≤ 0 := by omega
    obtain ⟨st, ct, ls, ps, ta, ini, ip, ci, pc, np, ss, se, pr⟩ := s
    replace h0 : ini = true := h0
    replace h3 : pr = true := h3
    replace h1 : (st == EngineState.Running || st == EngineState.Stepping) = true := h1
    subst h0
    subst h3
    cases st <;> first
      | exact absurd h1 (by decide)
      | simp [EngineClient.sendStep, EngineClient.isRunning, setState, sendMessageEvents,
          hn, errMsg?, stepMessage]
  · unfold EngineClient.isRunning
    simp

/-- Concrete instantiation of claim C3 (amended) on the running sample
    session. -/
theorem claim_C3_step_preconditions_witness :
    sampleClient.initialized = true ∧
      sampleClient.isRunning = true ∧
      ((0 : Int) < 2) ∧
      sampleClient.processRunning = true ∧
      (sampleClient.sendStep 2).client.state = EngineState.Stepping ∧
      (sampleClient.sendStep 2).sent = [stepMessage 2] :=
  ⟨rfl, rfl, by decide, rfl,
    ((claim_C3_step_preconditions sampleClient 2).2.2.2.1 rfl rfl (by decide) rfl).1,
    ((claim_C3_step_preconditions sampleClient 2).2.2.2.1 rfl rfl (by decide) rfl).2.1⟩

/-! ## Claim C8: currentTick adoption (corrected: no monotonicity) -/

/-- A success step frame reporting tick 2. -/
def decreasingStepFrame : Json :=
  Json.obj [("success", Json.bool true), ("op", Json.str "step"),
    ("data", Json.obj [("tick", Json.num 2)])]

/-- C8 counterexample: while Running with currentTick 5, a successful
    step response reporting tick 2 is adopted as-is, so currentTick
    decreases from 5 to 2, contradicting the claimed monotonicity while
    Running or Stepping. -/
theorem claim_C8_counterexample :
    sampleClient.state = EngineState.Running ∧
      sampleClient.currentTick = 5 ∧
      (sampleClient.handleResponse decreasingStepFrame).client.currentTick = 2 ∧
      (sampleClient.handleResponse decreasingStepFrame).client.state =
        EngineState.Running ∧
      (2 : Int) < 5 := by
  exact ⟨rfl, rfl, by decide, by decide, by decide⟩

/-- C8 (amended): currentTick is set to 0 by every start() call that
    passes its guards (before any outcome is known); a successful step or
    ping response overwrites currentTick with the reported tick — whatever
    it is, with the previous value as default when absent — and a
    successful init response sets it to the reported tick with default 0.
    No monotonicity is enforced. -/
theorem claim_C8_tick_adoption (s : EngineClient) (j : Json) :
    ((s.state ≠ EngineState.Running ∧ s.state ≠ EngineState.Stepping ∧
        s.state ≠ EngineState.Starting ∧ s.sidecarScript ≠ "" ∧ s.scriptExists = true) →
      (s.start).client.currentTick = 0) ∧
      ((j.objValue "success").toBoolD false = true →
        ((j.objValue "op").toStringD "" = "step" ∨ (j.objValue "op").toStringD "" = "ping") →
        (s.handleResponse j).client.currentTick =
          ((Json.obj ((j.objValue "data").toObjFields)).objValue "tick").toIntD
            s.currentTick) ∧
      ((j.objValue "success").toBoolD false = true →
        (j.objValue "op").toStringD "" = "init" →
        (s.handleResponse j).client.currentTick =
          ((Json.obj ((j.objValue "data").toObjFields)).objValue "tick").toIntD 0) := by
  refine ⟨?_, ?_, ?_⟩
  · rintro ⟨h1, h2, h3, h4, h5⟩
    unfold EngineClient.start setState
    have e1 : (s.state == EngineState.Running || s.state == EngineState.Stepping) = false := by
      simp [h1, h2]
    have e2 : (s.state == EngineState.Starting) = false := by simp [h3]
    rw [e1, e2, if_neg h4, h5]
    split_ifs <;> simp_all
  · intro hsucc hop
    rcases hop with hop | hop <;>
      simp only [EngineClient.handleResponse, setState, hsucc, hop, Bool.not_true,
        Bool.false_eq_true, String.reduceEq, reduceIte] <;>
      (repeat' split) <;> rfl
  · intro hsucc hop
    simp only [EngineClient.handleResponse, setState, hsucc, hop, Bool.not_true,
      Bool.false_eq_true, String.reduceEq, reduceIte]
    (repeat' split) <;> rfl

/-- Concrete instantiation of claim C8 (amended): a stopped session
    restarted has tick 0, and the sample session adopts tick 2 from the
    decreasing step frame. -/
theorem claim_C8_tick_adoption_witness :
    (({ sampleClient with state := EngineState.Stopped } : EngineClient).state ≠
        EngineState.Running ∧
      ({ sampleClient with state := EngineState.Stopped } : EngineClient).state ≠
        EngineState.Stepping ∧
      ({ sampleClient with state := EngineState.Stopped } : EngineClient).state ≠
        EngineState.Starting ∧
      ({ sampleClient with state := EngineState.Stopped } : EngineClient).sidecarScript ≠ "" ∧
      ({ sampleClient with state := EngineState.Stopped } : EngineClient).scriptExists = true) ∧
      (({ sampleClient with state := EngineState.Stopped } : EngineClient).start).client.currentTick = 0 ∧
      (sampleClient.handleResponse decreasingStepFrame).client.currentTick = 2 :=
  ⟨⟨by decide, by decide, by decide, by decide, rfl⟩,
    (claim_C8_tick_adoption { sampleClient with state := EngineState.Stopped }
      decreasingStepFrame).1 ⟨by decide, by decide, by decide, by decide, rfl⟩,
    (claim_C8_tick_adoption sampleClient decreasingStepFrame).2.1 rfl (Or.inl rfl)⟩

/-! ## EngineInterface (socket transport) reconnect policy -/

/-- EngineInterface.h constants. -/
def PING_INTERVAL_MS : ℕ := 5000

def RECONNECT_DELAY_MS : ℕ := 2000

def MAX_RECONNECT_ATTEMPTS : ℕ := 5

/-- The EngineInterface fields the reconnect policy reads and writes. -/
structure EngineInterface where
  connected : Bool
  autoReconnect : Bool
  reconnectAttempts : ℕ
  pingTimerActive : Bool
  reconnectTimerActive : Bool

/-- Externally visible effects of the reconnect policy: emitted signals,
    the single-shot reconnect timer being started, and a socket open
    request (one reconnect attempt). -/
inductive IfaceEvent where
  | disconnectedSig
  | logMsg (m : String)
  | connectionFailed (reason : String)
  | timerStart (delayMs : ℕ)
  | socketOpen
  deriving DecidableEq

/-- EngineInterface::scheduleReconnect: count the attempt, log, and start
    the single-shot reconnect timer (interval RECONNECT_DELAY_MS). -/
def scheduleReconnect (s : EngineInterface) : EngineInterface × List IfaceEvent :=
  let s1 := { s with reconnectAttempts := s.reconnectAttempts + 1 }
  ({ s1 with reconnectTimerActive := true },
    [IfaceEvent.logMsg
        ("Reconnecting in " ++ toString RECONNECT_DELAY_MS ++ "ms (attempt " ++
          toString s1.reconnectAttempts ++ "/" ++ toString MAX_RECONNECT_ATTEMPTS ++ ")..."),
      IfaceEvent.timerStart RECONNECT_DELAY_MS])

/-- EngineInterface::onDisconnected. -/
def onDisconnected (s : EngineInterface) : EngineInterface × List IfaceEvent :=
  let s1 := { s with connected := false, pingTimerActive := false }
  let base := [IfaceEvent.logMsg "Disconnected from Genesis Engine",
    IfaceEvent.disconnectedSig]
  if s1.autoReconnect = true ∧ s1.reconnectAttempts < MAX_RECONNECT_ATTEMPTS then
    let p := scheduleReconnect s1
    (p.1, base ++ p.2)
  else if MAX_RECONNECT_ATTEMPTS ≤ s1.reconnectAttempts then
    (s1, base ++ [IfaceEvent.connectionFailed "Max reconnection attempts reached"])
  else (s1, base)

/-- EngineInterface::onReconnectTimeout: the single-shot timer fires and
    attemptReconnect re-opens the socket. -/
def onReconnectTimeout (s : EngineInterface) : EngineInterface × List IfaceEvent :=
  ({ s with reconnectTimerActive := false }, [IfaceEvent.socketOpen])

/-- The spec scenario in which the peer never comes back: the socket
    reports a disconnect; while a reconnect got scheduled, the timer
    fires, the open attempt fails and the socket reports the next
    disconnect. -/
def reconnectRun : ℕ → EngineInterface → EngineInterface × List IfaceEvent
  | 0, s => (s, [])
  | fuel + 1, s =>
    let p := onDisconnected s
    if p.1.reconnectTimerActive then
      let q := onReconnectTimeout p.1
      let r := reconnectRun fuel q.1
      (r.1, p.2 ++ q.2 ++ r.2)
    else (p.1, p.2)

/-- A freshly connected interface (connectToEngine resets the attempt
    counter to 0). -/
def initialIface : EngineInterface :=
  { connected := true
    autoReconnect := true
    reconnectAttempts := 0
    pingTimerActive := true
    reconnectTimerActive := false }

def isOpenEv : IfaceEvent → Bool
  | IfaceEvent.socketOpen => true
  | _ => false

def isFailEv : IfaceEvent → Bool
  | IfaceEvent.connectionFailed _ => true
  | _ => false

def isTimerEv : IfaceEvent → Bool
  | IfaceEvent.timerStart _ => true
  | _ => false

/-- C7: with auto-reconnect on, every disconnect seen with fewer than 5
    prior attempts schedules exactly one reconnect attempt on the fixed
    2000 ms single-shot timer and emits no ConnectionFailed; the attempt
    counter never exceeds 5; and in the scenario where the peer never
    comes back, exactly 5 socket open attempts happen and ConnectionFailed
    fires exactly once, after all 5 attempts. -/
theorem claim_C7_reconnect_budget :
    (∀ s : EngineInterface, s.autoReconnect = true →
      s.reconnectAttempts < MAX_RECONNECT_ATTEMPTS →
        (onDisconnected s).2.filter isTimerEv = [IfaceEvent.timerStart RECONNECT_DELAY_MS] ∧
          (onDisconnected s).2.filter isFailEv = [] ∧
          (onDisconnected s).1.reconnectAttempts = s.reconnectAttempts + 1 ∧
          (onDisconnected s).1.reconnectTimerActive = true) ∧
      (∀ s : EngineInterface, s.reconnectAttempts ≤ MAX_RECONNECT_ATTEMPTS →
        (onDisconnected s).1.reconnectAttempts ≤ MAX_RECONNECT_ATTEMPTS) ∧
      RECONNECT_DELAY_MS = 2000 ∧
      MAX_RECONNECT_ATTEMPTS = 5 ∧
      ((reconnectRun 10 initialIface).2.filter (fun e => isOpenEv e || isFailEv e) =
        [IfaceEvent.socketOpen, IfaceEvent.socketOpen, IfaceEvent.socketOpen,
          IfaceEvent.socketOpen, IfaceEvent.socketOpen,
          IfaceEvent.connectionFailed "Max reconnection attempts reached"]) ∧
      (reconnectRun 10 initialIface).1.reconnectAttempts = MAX_RECONNECT_ATTEMPTS := by
  refine ⟨?_, ?_, rfl, rfl, by decide, by decide⟩
  · intro s h1 h2
    unfold onDisconnected
    rw [if_pos ⟨h1, h2⟩]
    exact ⟨rfl, rfl, rfl, rfl⟩
  · intro s hle
    simp only [onDisconnected, scheduleReconnect]
    split_ifs with hc1 hc2 <;> simp only [] <;> omega

/-- Concrete instantiation of claim C7 at the fresh interface state. -/
theorem claim_C7_reconnect_budget_witness :
    initialIface.autoReconnect = true ∧
      initialIface.reconnectAttempts < MAX_RECONNECT_ATTEMPTS ∧
      (onDisconnected initialIface).2.filter isTimerEv =
        [IfaceEvent.timerStart RECONNECT_DELAY_MS] :=
  ⟨rfl, by decide, (claim_C7_reconnect_budget.1 initialIface rfl (by decide)).1⟩

end EcoSysX
